import Mathlib

/-!
Verification development for the Gene-panel-designer repository.

The definitions below are shallow embeddings of the Python source:
`src/app.py` (filter parsing, per-gene generation loop, padding),
`src/mane_utils.py` (transcript fetch retry loop, BED record compiler) and
`src/liftover_utils.py` (single-region and BED-text liftover).
Machine strings are modelled as Lean `String` / `List Char`, Python `int` as
`Int`, Python `set` as `Finset ℕ`, raised exceptions as `Except` / `Option`.
-/

/-! ## Python string-primitive models (over `List Char`) -/

/-- Python `str.split(sep)` for a single-character separator: always returns at
least one (possibly empty) field; `"".split(",") = [""]`, `",".split(",") = ["",""]`. -/
def pySplitOnChar (c : Char) : List Char → List (List Char)
  | [] => [[]]
  | x :: xs =>
    match pySplitOnChar c xs with
    | [] => [[]]
    | h :: t => if x = c then [] :: h :: t else (x :: h) :: t

/-- Python `str.strip()` (whitespace from both ends). -/
def pyStrip (l : List Char) : List Char :=
  ((l.dropWhile Char.isWhitespace).reverse.dropWhile Char.isWhitespace).reverse

/-- Python `str.strip(chars)` for the quote character, `p.strip('"')`. -/
def pyStripQuotes (l : List Char) : List Char :=
  ((l.dropWhile (· = '"')).reverse.dropWhile (· = '"')).reverse

/-- Python `str.lower()` (ASCII is all the repository needs). -/
def pyLower (l : List Char) : List Char := l.map Char.toLower

/-- Python `str.lower()` at `String` type. -/
def pyLowerStr (s : String) : String := String.mk (pyLower s.data)

/-- Python `str.isdigit()`: non-empty and all characters are digits. -/
def pyIsDigit (l : List Char) : Bool := !l.isEmpty && l.all Char.isDigit

/-- Numeric value of a digit string (used where the source calls `int(...)`
after an `isdigit` guard). -/
def listToNat (l : List Char) : ℕ := l.foldl (fun a c => a * 10 + (c.toNat - 48)) 0

/-- Python `str.startswith(p)`. -/
def pyStartsWith (p s : String) : Bool := p.data.isPrefixOf s.data

/-- Python `str.split()` with no separator: split on whitespace runs, dropping
empty fields. -/
def pySplitWS (l : List Char) : List (List Char) :=
  (l.splitOnP Char.isWhitespace).filter (fun p => !p.isEmpty)

/-- Digit run (with Python's single-underscore digit separators) consumed by
`int(...)`; accumulator style. Rejects trailing or doubled underscores. -/
def pyDigits? : List Char → ℕ → Option ℕ
  | [], acc => some acc
  | '_' :: c :: cs, acc =>
    if c.isDigit then pyDigits? cs (acc * 10 + (c.toNat - 48)) else none
  | c :: cs, acc => if c.isDigit then pyDigits? cs (acc * 10 + (c.toNat - 48)) else none

/-- `int(...)` body after the optional sign: must start with a digit. -/
def pyIntDigitsStart : List Char → Option ℕ
  | [] => none
  | c :: cs => if c.isDigit then pyDigits? cs (c.toNat - 48) else none

/-- Python `int(str)`: optional surrounding whitespace, optional sign, decimal
digits (single underscores permitted between digits); `none` models the
`ValueError` raise. -/
def pyInt? (s : List Char) : Option Int :=
  match pyStrip s with
  | '+' :: rest => (pyIntDigitsStart rest).map (fun n => (n : Int))
  | '-' :: rest => (pyIntDigitsStart rest).map (fun n => -(n : Int))
  | rest => (pyIntDigitsStart rest).map (fun n => (n : Int))

/-! ## FilterParser — `parse_exon_filter`, src/app.py lines 8–43 -/

/-- One comma-separated token of the filter expression: a `lo-hi` range (both
bounds digits, `lo ≤ hi`) or a bare digit token; anything else raises. -/
def parse_filter_part (acc : Finset ℕ) (part : List Char) : Except String (Finset ℕ) :=
  if part.contains '-' then
    match pySplitOnChar '-' part with
    | [b0, b1] =>
      if pyIsDigit b0 && pyIsDigit b1 then
        let lo := listToNat b0
        let hi := listToNat b1
        if lo > hi then .error "Invalid range: start must be at most end"
        else .ok (acc ∪ Finset.Icc lo hi)
      else .error "Invalid range: use format like 5-9"
    | _ => .error "Invalid range: use format like 5-9"
  else if pyIsDigit part then .ok (acc ∪ {listToNat part})
  else .error "Invalid token: use integers, commas and ranges"

/-- `parse_exon_filter(value)` from src/app.py: `none` input models a missing
value / `NaN`; blank, `"all"` (case-insensitive) or `"nan"` yield the ALL
sentinel (`Except.ok none`); otherwise spaces are removed, the string is split
on commas and each token parsed; an empty result set raises. -/
def parse_exon_filter (value : Option String) : Except String (Option (Finset ℕ)) :=
  match value with
  | none => .ok none
  | some v =>
    let sl := String.mk (pyLower (pyStrip v.data))
    if sl = "all" ∨ sl = "" ∨ sl = "nan" then .ok none
    else
      match (pySplitOnChar ',' (v.data.filter (· ≠ ' '))).foldlM parse_filter_part ∅ with
      | .error e => .error e
      | .ok result =>
        if result = ∅ then .error "Exon filter is empty after parsing"
        else .ok (some result)

example : ∃ s, parse_exon_filter (some "1,3,5-7") = .ok (some s) ∧ s = {1, 3, 5, 6, 7} :=
  ⟨_, rfl, by decide⟩

example : parse_exon_filter (some "") = .ok none := rfl
example : parse_exon_filter (some " ALL ") = .ok none := rfl
example : parse_exon_filter (some "3-1") = .error "Invalid range: start must be at most end" := rfl
example : parse_exon_filter (some "x") = .error "Invalid token: use integers, commas and ranges" := rfl
example : parse_exon_filter (some ",") = .error "Invalid token: use integers, commas and ranges" := rfl

/-! ## Data model — output of `fetch_ensembl_exons` (src/mane_utils.py 284–369) -/

/-- One exon span as returned by the annotation service: 1-based inclusive
genomic coordinates (the `id` / `strand` / `seq_region_name` dict keys are not
consumed by `generate_bed_records` and are omitted). -/
structure Exon where
  start : Int
  «end» : Int
deriving DecidableEq

/-- The dictionary returned by `fetch_ensembl_exons`. -/
structure TranscriptInfo where
  transcript_id : String
  exons : List Exon
  cds_start : Option Int
  cds_end : Option Int
  chr : String
  strand : Int
deriving DecidableEq

/-- One `(chrom, start, end, name)` tuple of the `records` list built by
`generate_bed_records` (0-based half-open BED coordinates). -/
structure BedRecord where
  chrom : String
  start : Int
  stop : Int
  name : String
deriving DecidableEq

/-! ## Sorting — `sorted(transcript_info['exons'], key=lambda x: x['start'])` -/

/-- Insert an exon after all existing entries with `start ≤` its own, as a
stable sort step. -/
def insortExon (x : Exon) : List Exon → List Exon
  | [] => [x]
  | y :: ys => if y.start ≤ x.start then y :: insortExon x ys else x :: y :: ys

/-- Stable sort of the exon list by genomic `start`, matching Python's
`sorted(exons, key=lambda x: x['start'])` (Python's sort is stable, and a
left-to-right stable insertion sort produces the identical list). -/
def sortExonsByStart (l : List Exon) : List Exon :=
  l.foldl (fun acc x => insortExon x acc) []

theorem mem_insortExon {a x : Exon} {l : List Exon} :
    a ∈ insortExon x l ↔ a = x ∨ a ∈ l := by
  induction l with
  | nil => simp [insortExon]
  | cons y ys ih =>
    simp only [insortExon]
    split
    · simp [ih]; tauto
    · simp

theorem mem_sortExonsByStart_aux {a : Exon} {l acc : List Exon} :
    a ∈ l.foldl (fun acc x => insortExon x acc) acc ↔ a ∈ acc ∨ a ∈ l := by
  induction l generalizing acc with
  | nil => simp
  | cons x xs ih => simp [List.foldl_cons, ih, mem_insortExon]; tauto

theorem mem_sortExonsByStart {a : Exon} {l : List Exon} :
    a ∈ sortExonsByStart l ↔ a ∈ l := by
  simp [sortExonsByStart, mem_sortExonsByStart_aux]

/-! ## RegionCompiler — `generate_bed_records` (src/mane_utils.py 371–533) -/

/-- Transcript-order exon number for the exon at genomic index `i` (0-based,
ascending starts) of a transcript with `total` exons:
`i + 1` if `strand == 1` else `total - i` (src/mane_utils.py 437–441). -/
def exon_number (strand : Int) (total i : ℕ) : ℕ :=
  if strand = 1 then i + 1 else total - i

/-- Intron number for the intron after genomic exon index `i`:
`i + 1` if `strand == 1` else `total - i - 1` (src/mane_utils.py 521–524). -/
def intron_number (strand : Int) (total i : ℕ) : ℕ :=
  if strand = 1 then i + 1 else total - i - 1

/-- Per-exon body of the compiler loop (src/mane_utils.py 445–509): with no CDS
the whole exon is one generic record; otherwise the exon is split into a
pre-CDS part (5'UTR on +, 3'UTR on -, emitted only under the matching flag), a
CDS overlap (always emitted when non-empty) and a post-CDS part (3'UTR on +,
5'UTR on -, again flag-guarded). Entries are `(bed_start, bed_end, name)`. -/
def split_exon (strand : Int) (include_5utr include_3utr : Bool)
    (cds : Option (Int × Int)) (region_base_name : String)
    (start «end» : Int) : List (Int × Int × String) :=
  match cds with
  | none => [(start - 1, «end», region_base_name)]
  | some (cds_start, cds_end) =>
    (if start < cds_start then
       let u_end := min «end» (cds_start - 1)
       if u_end ≥ start then
         let type_ := if strand = 1 then "5UTR" else "3UTR"
         if (type_ = "5UTR" ∧ include_5utr) ∨ (type_ = "3UTR" ∧ include_3utr) then
           [(start - 1, u_end, region_base_name ++ "_" ++ type_)]
         else []
       else []
     else []) ++
    (let c_start := max start cds_start
     let c_end := min «end» cds_end
     if c_end ≥ c_start then [(c_start - 1, c_end, region_base_name ++ "_CDS")] else []) ++
    (if «end» > cds_end then
       let u_start := max start (cds_end + 1)
       if «end» ≥ u_start then
         let type_ := if strand = 1 then "3UTR" else "5UTR"
         if (type_ = "5UTR" ∧ include_5utr) ∨ (type_ = "3UTR" ∧ include_3utr) then
           [(u_start - 1, «end», region_base_name ++ "_" ++ type_)]
         else []
       else []
     else [])

/-- The exon loop (`for i, ex in enumerate(exons)`), producing `final_regions`
in genomic order; `i` is the genomic index of the head of the remaining list. -/
def exon_regions (strand : Int) (include_5utr include_3utr : Bool)
    (cds : Option (Int × Int)) (total : ℕ) : ℕ → List Exon → List (Int × Int × String)
  | _, [] => []
  | i, ex :: rest =>
    split_exon strand include_5utr include_3utr cds
        ("exon" ++ toString (exon_number strand total i)) ex.start ex.«end»
      ++ exon_regions strand include_5utr include_3utr cds total (i + 1) rest

/-- The intron loop (src/mane_utils.py 516–527): for consecutive sorted exons,
BED start is the left exon's 1-based end, BED end is the right exon's 1-based
start minus one; zero-width introns are dropped by the `>` guard. -/
def intron_records (chrom : String) (strand : Int) (total : ℕ) :
    ℕ → List Exon → List BedRecord
  | i, e1 :: e2 :: rest =>
    let bed_intron_start := e1.«end»
    let bed_intron_end := e2.start - 1
    (if bed_intron_end > bed_intron_start then
       [⟨chrom, bed_intron_start, bed_intron_end,
         "intron" ++ toString (intron_number strand total i)⟩]
     else [])
      ++ intron_records chrom strand total (i + 1) (e2 :: rest)
  | _, _ => []

/-- Strand-aware promoter / downstream flanks (src/mane_utils.py 396–425):
1-based intermediate coordinates converted to BED via `(start-1, end)`; the
forward-strand 5' flank and reverse-strand 3' flank are clamped at position 1
and dropped when empty after clamping. -/
def flank_records (chrom : String) (strand : Int)
    (min_start max_end flank_5_prime flank_3_prime : Int) : List BedRecord :=
  (if flank_5_prime > 0 then
     if strand = 1 then
       let f5_start_1base := max 1 (min_start - flank_5_prime)
       let f5_end_1base := min_start - 1
       if f5_end_1base ≥ f5_start_1base then
         [⟨chrom, f5_start_1base - 1, f5_end_1base, "promoter_5prime"⟩]
       else []
     else
       let f5_start_1base := max_end + 1
       let f5_end_1base := max_end + flank_5_prime
       [⟨chrom, f5_start_1base - 1, f5_end_1base, "promoter_5prime"⟩]
   else []) ++
  (if flank_3_prime > 0 then
     if strand = 1 then
       let f3_start_1base := max_end + 1
       let f3_end_1base := max_end + flank_3_prime
       [⟨chrom, f3_start_1base - 1, f3_end_1base, "downstream_3prime"⟩]
     else
       let f3_start_1base := max 1 (min_start - flank_3_prime)
       let f3_end_1base := min_start - 1
       if f3_end_1base ≥ f3_start_1base then
         [⟨chrom, f3_start_1base - 1, f3_end_1base, "downstream_3prime"⟩]
       else []
   else [])

/-- Pairing of the two CDS dictionary entries. `none` (outermost) models the
Python `TypeError` crash that `min(end, cds_end)` would raise when `cds_start`
is set but `cds_end` is `None`; the inner `Option` is the non-coding check
`if cds_start is None` of src/mane_utils.py 449. -/
def cds_pair : Option Int → Option Int → Option (Option (Int × Int))
  | none, _ => some none
  | some cs, some ce => some (some (cs, ce))
  | some _, none => none

/-- `generate_bed_records(transcript_info, ...)` (src/mane_utils.py 371–533):
chromosome `chr`-prefix normalization, exon sort, flanks, optional introns and
per-exon split records, in the source's append order. The result is `none`
exactly where the Python function would raise (`exons[0]` on an empty exon
list; the `cds_end is None` crash above). -/
def generate_bed_records (ti : TranscriptInfo)
    (include_5utr include_3utr include_intron : Bool)
    (flank_5_prime flank_3_prime : Int) : Option (List BedRecord) :=
  let chrom := if pyStartsWith "chr" ti.chr then ti.chr else "chr" ++ ti.chr
  match sortExonsByStart ti.exons, cds_pair ti.cds_start ti.cds_end with
  | e0 :: rest, some cds =>
    let exons := e0 :: rest
    let min_start := e0.start
    let max_end := (exons.getLastD e0).«end»
    let total_exons := exons.length
    some (flank_records chrom ti.strand min_start max_end flank_5_prime flank_3_prime
      ++ (if include_intron then intron_records chrom ti.strand total_exons 0 exons else [])
      ++ (exon_regions ti.strand include_5utr include_3utr cds total_exons 0 exons).map
           (fun r => ⟨chrom, r.1, r.2.1, r.2.2⟩))
  | _, _ => none

example :
    generate_bed_records
      ⟨"T", [⟨100, 150⟩, ⟨200, 250⟩], none, none, "1", 1⟩ false false true 0 0
      = some [⟨"chr1", 150, 199, "intron1"⟩,
              ⟨"chr1", 99, 150, "exon1"⟩, ⟨"chr1", 199, 250, "exon2"⟩] := by
  rfl

/-! ## Spec-modelled filtered compiler

src/app.py (lines 584–593) calls `generate_bed_records` with `exon_filter=` and
`intron_filter=` keyword arguments, but the copy of `generate_bed_records` in
src/mane_utils.py does not take those parameters; the filter handling therefore
lives in repository code that is not under src/. It is modelled here from the
spec (§4.3): an exon whose transcript-order number is outside the
exon-selection set (when not ALL) is skipped entirely, all of its
sub-intervals including CDS; an intron is skipped if its own number is outside
the intron-selection set, or — when an exon filter is active — if either of
its two flanking exons is not in the exon-selection set; flanks are emitted
independent of the filters. -/

/-- Membership in a selection set, `none` being the ALL sentinel. -/
def in_selection (filt : Option (Finset ℕ)) (n : ℕ) : Bool :=
  match filt with
  | none => true
  | some s => decide (n ∈ s)

/-- Modelled from the spec: the exon loop of the filtered
`generate_bed_records` — an exon whose transcript-order number fails
`in_selection` contributes nothing. -/
def exon_regions_filtered (strand : Int) (include_5utr include_3utr : Bool)
    (cds : Option (Int × Int)) (total : ℕ) (exon_filter : Option (Finset ℕ)) :
    ℕ → List Exon → List (Int × Int × String)
  | _, [] => []
  | i, ex :: rest =>
    (if in_selection exon_filter (exon_number strand total i) then
       split_exon strand include_5utr include_3utr cds
         ("exon" ++ toString (exon_number strand total i)) ex.start ex.«end»
     else [])
      ++ exon_regions_filtered strand include_5utr include_3utr cds total exon_filter
           (i + 1) rest

/-- Modelled from the spec: the intron loop of the filtered
`generate_bed_records` — an intron is kept only if non-empty, its own number
passes the intron filter, and both flanking exons pass the exon filter. -/
def intron_records_filtered (chrom : String) (strand : Int) (total : ℕ)
    (exon_filter intron_filter : Option (Finset ℕ)) :
    ℕ → List Exon → List BedRecord
  | i, e1 :: e2 :: rest =>
    let bed_intron_start := e1.«end»
    let bed_intron_end := e2.start - 1
    (if bed_intron_end > bed_intron_start
        ∧ in_selection intron_filter (intron_number strand total i)
        ∧ in_selection exon_filter (exon_number strand total i)
        ∧ in_selection exon_filter (exon_number strand total (i + 1)) then
       [⟨chrom, bed_intron_start, bed_intron_end,
         "intron" ++ toString (intron_number strand total i)⟩]
     else [])
      ++ intron_records_filtered chrom strand total exon_filter intron_filter
           (i + 1) (e2 :: rest)
  | _, _ => []

/-- Modelled from the spec: `generate_bed_records` as invoked by src/app.py with
`exon_filter` / `intron_filter` arguments; identical to `generate_bed_records`
except that the exon and intron loops honour the selection sets, while flanks
remain unconditional. -/
def generate_bed_records_filtered (ti : TranscriptInfo)
    (include_5utr include_3utr include_intron : Bool)
    (flank_5_prime flank_3_prime : Int)
    (exon_filter intron_filter : Option (Finset ℕ)) : Option (List BedRecord) :=
  let chrom := if pyStartsWith "chr" ti.chr then ti.chr else "chr" ++ ti.chr
  match sortExonsByStart ti.exons, cds_pair ti.cds_start ti.cds_end with
  | e0 :: rest, some cds =>
    let exons := e0 :: rest
    let min_start := e0.start
    let max_end := (exons.getLastD e0).«end»
    let total_exons := exons.length
    some (flank_records chrom ti.strand min_start max_end flank_5_prime flank_3_prime
      ++ (if include_intron then
            intron_records_filtered chrom ti.strand total_exons exon_filter intron_filter
              0 exons
          else [])
      ++ (exon_regions_filtered ti.strand include_5utr include_3utr cds total_exons
            exon_filter 0 exons).map (fun r => ⟨chrom, r.1, r.2.1, r.2.2⟩))
  | _, _ => none

/-- Provenance-tagged exon loop: identical contributions to `exon_regions`, but
each entry carries the transcript-order number of the exon it derives from. -/
def exon_regions_tagged (strand : Int) (include_5utr include_3utr : Bool)
    (cds : Option (Int × Int)) (total : ℕ) :
    ℕ → List Exon → List (ℕ × (Int × Int × String))
  | _, [] => []
  | i, ex :: rest =>
    (split_exon strand include_5utr include_3utr cds
        ("exon" ++ toString (exon_number strand total i)) ex.start ex.«end»).map
      (fun r => (exon_number strand total i, r))
      ++ exon_regions_tagged strand include_5utr include_3utr cds total (i + 1) rest

/-! ## Padding and the per-gene loop of src/app.py 488–612 -/

/-- The padding step of the generation loop (src/app.py 595–597):
`p_start = max(0, start - padding)`, `p_end = end + padding`. -/
def pad_record (padding : Int) (r : BedRecord) : BedRecord :=
  { r with start := max 0 (r.start - padding), stop := r.stop + padding }

/-- Padding applied to every record emitted for a gene. -/
def pad_records (padding : Int) (rs : List BedRecord) : List BedRecord :=
  rs.map (pad_record padding)

/-- Exon-filter validation (src/app.py 549–564): out-of-range numbers are
dropped; when the remaining set is empty the whole gene is skipped
(`continue`). Result `none` = gene skipped; `some filt` = filter to use. -/
def validate_exon_filter (n_exons : ℕ) :
    Option (Finset ℕ) → Option (Option (Finset ℕ))
  | none => some none
  | some s =>
    let invalid := s.filter (fun e => e < 1 ∨ e > n_exons)
    if invalid = ∅ then some (some s)
    else
      let s2 := s \ invalid
      if s2 = ∅ then none else some (some s2)

/-- Intron-filter validation (src/app.py 566–582): out-of-range numbers are
dropped; when the remaining set is empty *and* introns are enabled, the intron
filter resets to ALL and introns are disabled for this gene; the gene itself
continues. Returns the `(intron_filter, use_intron)` pair to use. -/
def validate_intron_filter (n_introns : ℕ) (use_intron : Bool) :
    Option (Finset ℕ) → Option (Finset ℕ) × Bool
  | none => (none, use_intron)
  | some s =>
    let invalid := s.filter (fun n => n < 1 ∨ n > n_introns)
    if invalid = ∅ then (some s, use_intron)
    else
      let s2 := s \ invalid
      if s2 = ∅ ∧ use_intron then (none, false)
      else (some s2, use_intron)

/-- One iteration of the generation loop of src/app.py (lines 488–612),
restricted to the region computation: parse both filters (a syntax error skips
the gene), fail when the transcript fetch failed, validate the filters against
the actual exon/intron counts, generate the records and pad them. `none`
means no records are emitted for this gene. String formatting of the BED line
(name composition, strand column) is not modelled. -/
def process_gene (transcript_info : Option TranscriptInfo)
    (use_5utr use_3utr use_intron : Bool) (flank_5prime flank_3prime : Int)
    (exon_filter_raw intron_filter_raw : Option String) (padding : Int) :
    Option (List BedRecord) :=
  match parse_exon_filter exon_filter_raw with
  | .error _ => none
  | .ok exon_filter_set =>
    match parse_exon_filter intron_filter_raw with
    | .error _ => none
    | .ok intron_filter_set =>
      match transcript_info with
      | none => none
      | some ti =>
        let n_exons := ti.exons.length
        match validate_exon_filter n_exons exon_filter_set with
        | none => none
        | some exon_filter_set2 =>
          let n_introns := max (n_exons - 1) 0
          let p := validate_intron_filter n_introns use_intron intron_filter_set
          (generate_bed_records_filtered ti use_5utr use_3utr p.2
              flank_5prime flank_3prime exon_filter_set2 p.1).map
            (pad_records padding)

/-! ## LiftOverEngine — src/liftover_utils.py

A pyliftover `LiftOver` object is modelled as its `convert_coordinate` method:
a function from `(chromosome, position)` to the (possibly empty) list of
`(target_chromosome, target_position)` hits; only the first hit is consumed by
the source, so further tuple components are omitted. -/

/-- `_convert_region(lo, chrom, start, end)` (src/liftover_utils.py 136–149):
map both endpoints independently through the first hit; `none` when either
list is empty or the two hits land on different chromosomes; swap when the
mapped start exceeds the mapped end. -/
def _convert_region (lo : String → Int → List (String × Int))
    (chrom : String) (start «end» : Int) : Option (String × Int × Int) :=
  match lo chrom start, lo chrom «end» with
  | (c1, p1) :: _, (c2, p2) :: _ =>
    if c1 ≠ c2 then none
    else if p1 > p2 then some (c1, p2, p1)
    else some (c1, p1, p2)
  | _, _ => none

/-- `liftover_single_region(chrom, start, end, from_build, to_build)`
(src/liftover_utils.py 95–133): builds are lowercased; equal builds return the
input unchanged (before any chromosome normalization); otherwise the chromosome
gains a `chr` prefix and the supported pairs dispatch to `_convert_region`
(hg19→t2t composes through hg38); an unsupported pair raises `ValueError`,
modelled as `Except.error`. `Except.ok none` is the unmapped (`None`) return. -/
def liftover_single_region (lo_hg19_hg38 lo_hg38_t2t : String → Int → List (String × Int))
    (chrom : String) (start «end» : Int) (from_build to_build : String) :
    Except String (Option (String × Int × Int)) :=
  let from_b := pyLowerStr from_build
  let to_b := pyLowerStr to_build
  if from_b = to_b then .ok (some (chrom, start, «end»))
  else
    let chrom := if pyStartsWith "chr" chrom then chrom else "chr" ++ chrom
    if (from_b = "hg38" ∨ from_b = "grch38") ∧ (to_b = "t2t" ∨ to_b = "hs1" ∨ to_b = "chm13") then
      .ok (_convert_region lo_hg38_t2t chrom start «end»)
    else if (from_b = "hg19" ∨ from_b = "grch37") ∧ (to_b = "hg38" ∨ to_b = "grch38") then
      .ok (_convert_region lo_hg19_hg38 chrom start «end»)
    else if (from_b = "hg19" ∨ from_b = "grch37") ∧ (to_b = "t2t" ∨ to_b = "hs1" ∨ to_b = "chm13") then
      match _convert_region lo_hg19_hg38 chrom start «end» with
      | none => .ok none
      | some (c, s, e) => .ok (_convert_region lo_hg38_t2t c s e)
    else .error ("Unsupported liftover: " ++ from_b ++ " -> " ++ to_b)

/-- The three-stage tolerant tokenization of a data line
(src/liftover_utils.py 45–50): tab-delimited first; if fewer than three fields,
comma-delimited with quote stripping; if still fewer than three, generic
whitespace splitting. -/
def tolerant_tokenize (stripped : List Char) : List (List Char) :=
  let parts0 := pySplitOnChar '\t' stripped
  let parts1 :=
    if parts0.length < 3 then (pySplitOnChar ',' stripped).map pyStripQuotes else parts0
  if parts1.length < 3 then pySplitWS stripped else parts1

/-- Outcome of one line of `_liftover_bed_content`: appended to the converted
output or to the unmapped output. -/
inductive LineResult where
  | conv (l : String)
  | unmapped (l : String)
deriving DecidableEq

/-- One iteration of the `for line in bed_content.splitlines()` loop of
`_liftover_bed_content` (src/liftover_utils.py 33–84): BOM stripping,
pass-through of blank/comment/header lines, tolerant tokenization, chromosome
normalization (`chr` prefix, `chrMT` → `chrM`), integer coordinate parsing
(failure → "# Invalid Coordinates"), endpoint mapping (failure → "# Mapping
Failed", chromosome mismatch → "# Split Mapping"), swap of inverted endpoints
and reconstruction with the remaining columns carried through verbatim. -/
def process_line (lo : String → Int → List (String × Int)) (line0 : String) : LineResult :=
  let line := String.mk (line0.data.dropWhile (· = '﻿'))
  if (pyStrip line.data).isEmpty || pyStartsWith "#" line || pyStartsWith "track" line
      || pyStartsWith "browser" line then
    .conv line
  else
    let parts := tolerant_tokenize (pyStrip line.data)
    if parts.length < 3 then .unmapped (line ++ "\t# Invalid Format")
    else
      let chrom0 := String.mk (parts.getD 0 [])
      let chrom1 := if pyStartsWith "chr" chrom0 then chrom0 else "chr" ++ chrom0
      let chrom := if chrom1 = "chrMT" then "chrM" else chrom1
      match pyInt? (parts.getD 1 []), pyInt? (parts.getD 2 []) with
      | some start, some «end» =>
        let rest := parts.drop 3
        match lo chrom start, lo chrom «end» with
        | (nc1, np1) :: _, (nc2, np2) :: _ =>
          if nc1 ≠ nc2 then .unmapped (line ++ "\t# Split Mapping")
          else
            let p := if np1 > np2 then (np2, np1) else (np1, np2)
            let new_line := nc1 ++ "\t" ++ toString p.1 ++ "\t" ++ toString p.2
            let new_line :=
              if rest.isEmpty then new_line
              else new_line ++ "\t" ++ String.intercalate "\t" (rest.map String.mk)
            .conv new_line
        | _, _ => .unmapped (line ++ "\t# Mapping Failed")
      | _, _ => .unmapped (line ++ "\t# Invalid Coordinates")

/-- `_liftover_bed_content(lo, bed_content)` (src/liftover_utils.py 24–86) at
the granularity of already-split lines: returns the pair
`(converted_lines, unmapped_lines)` in input order (the final `"\n".join` of
the source is not modelled). -/
def _liftover_bed_content (lo : String → Int → List (String × Int)) :
    List String → List String × List String
  | [] => ([], [])
  | l :: ls =>
    let r := _liftover_bed_content lo ls
    match process_line lo l with
    | .conv c => (c :: r.1, r.2)
    | .unmapped u => (r.1, u :: r.2)

/-! ## TranscriptResolver retry loop — src/mane_utils.py 306–317 -/

/-- One response of the annotation service to the initial-id lookup: an `ok`
response (JSON payload abstracted away), a non-ok HTTP status, or a raised
exception (timeout etc.). -/
inductive ApiResult where
  | ok
  | httpError (code : Int)
  | exc
deriving DecidableEq

/-- The `for attempt in range(2)` retry loop of `fetch_ensembl_exons`
(src/mane_utils.py 306–317), with the response to attempt `i` given by
`resp i`. Returns `(fetched, requests_made, sleeps)`: whether a fetch
succeeded, how many HTTP requests were issued, and the list of `time.sleep`
durations executed (a 1-second sleep follows a 429 status; other failures
retry immediately). -/
def retry_loop (resp : ℕ → ApiResult) : ℕ → ℕ → Bool × ℕ × List ℕ
  | 0, _ => (false, 0, [])
  | remaining + 1, i =>
    match resp i with
    | .ok => (true, 1, [])
    | .httpError code =>
      let r := retry_loop resp remaining (i + 1)
      (r.1, r.2.1 + 1, (if code = 429 then [1] else []) ++ r.2.2)
    | .exc =>
      let r := retry_loop resp remaining (i + 1)
      (r.1, r.2.1 + 1, r.2.2)

/-- The initial-id fetch of `fetch_ensembl_exons`: the retry loop instantiated
with its fixed attempt budget of 2. -/
def fetch_with_retry (resp : ℕ → ApiResult) : Bool × ℕ × List ℕ :=
  retry_loop resp 2 0

/-! ## Claim theorems -/

/-- C4: the filter parser maps "1,3,5-7" to {1,3,5,6,7}; a blank string, a
missing value, or the literal "all" in any casing yields the ALL sentinel; and
"3-1" (range with lo > hi), "x" (non-integer token) and "," (empty tokens)
each raise a filter-syntax error. -/
theorem parse_exon_filter_c4 :
    (∃ s, parse_exon_filter (some "1,3,5-7") = .ok (some s) ∧ s = {1, 3, 5, 6, 7}) ∧
    parse_exon_filter (some "") = .ok none ∧
    parse_exon_filter none = .ok none ∧
    parse_exon_filter (some "all") = .ok none ∧
    parse_exon_filter (some "ALL") = .ok none ∧
    parse_exon_filter (some "All") = .ok none ∧
    (∃ e, parse_exon_filter (some "3-1") = .error e) ∧
    (∃ e, parse_exon_filter (some "x") = .error e) ∧
    (∃ e, parse_exon_filter (some ",") = .error e) :=
  ⟨⟨_, rfl, by decide⟩, rfl, rfl, rfl, rfl, rfl, ⟨_, rfl⟩, ⟨_, rfl⟩, ⟨_, rfl⟩⟩

/-- C6: the compiler's transcript-order numbering gives the exon at genomic
index i (0-based, ascending starts) number i+1 on the forward strand and N-i on
the reverse strand; the intron after genomic exon i is numbered i+1 forward and
N-i-1 reverse, and in both cases the numbers of its two flanking exons are
exactly {intron number, intron number + 1}, i.e. intron k lies between
transcript-order exons k and k+1. -/
theorem transcript_order_numbering_c6 (strand : Int) (total i : ℕ) (hi : i < total) :
    (strand = 1 → exon_number strand total i = i + 1) ∧
    (strand ≠ 1 → exon_number strand total i = total - i) ∧
    (i + 1 < total →
      (strand = 1 → intron_number strand total i = i + 1) ∧
      (strand ≠ 1 → intron_number strand total i = total - i - 1) ∧
      ({exon_number strand total i, exon_number strand total (i + 1)} : Finset ℕ)
        = {intron_number strand total i, intron_number strand total i + 1}) := by
  refine ⟨fun h => by simp [exon_number, h], fun h => by simp [exon_number, h], fun hi1 => ?_⟩
  refine ⟨fun h => by simp [intron_number, h], fun h => by simp [intron_number, h], ?_⟩
  by_cases h : strand = 1
  · simp [exon_number, intron_number, h]
  · simp only [exon_number, intron_number, if_neg h]
    have h1 : total - (i + 1) = total - i - 1 := by omega
    have h2 : total - i - 1 + 1 = total - i := by omega
    rw [h1, h2, Finset.pair_comm]

theorem transcript_order_numbering_c6_witness :
    exon_number (-1) 5 1 = 4 ∧
    ({exon_number (-1) 5 1, exon_number (-1) 5 (1 + 1)} : Finset ℕ)
      = {intron_number (-1) 5 1, intron_number (-1) 5 1 + 1} :=
  ⟨(transcript_order_numbering_c6 (-1) 5 1 (by decide)).2.1 (by decide),
   ((transcript_order_numbering_c6 (-1) 5 1 (by decide)).2.2 (by decide)).2.2⟩

/-- C7: for every interval emitted by the compiler and every padding p ≥ 0,
each padded output interval arises from an emitted interval with
`output.start = max(0, pre_pad_start - p)` (lower bound clamped at 0) and
`output.end = pre_pad_end + p` (upper bound never clamped). -/
theorem padding_c7 (ti : TranscriptInfo) (i5 i3 iI : Bool) (f5 f3 p : Int)
    (hp : 0 ≤ p) (recs : List BedRecord)
    (hgen : generate_bed_records ti i5 i3 iI f5 f3 = some recs) :
    ∀ r ∈ pad_records p recs, ∃ r0 ∈ recs,
      r.start = max 0 (r0.start - p) ∧ r.stop = r0.stop + p := by
  intro r hr
  simp only [pad_records, List.mem_map] at hr
  obtain ⟨r0, h0, rfl⟩ := hr
  exact ⟨r0, h0, rfl, rfl⟩

theorem padding_c7_witness :
    ∃ r0 ∈ [BedRecord.mk "chr1" 99 150 "exon1"],
      (BedRecord.mk "chr1" 79 170 "exon1").start = max 0 (r0.start - 20) ∧
      (BedRecord.mk "chr1" 79 170 "exon1").stop = r0.stop + 20 :=
  padding_c7 ⟨"T", [⟨100, 150⟩], none, none, "1", 1⟩ false false false 0 0 20
    (by decide) _ rfl (BedRecord.mk "chr1" 79 170 "exon1") (by decide)

/-- C2 counterexample: an id whose every lookup returns HTTP 404 (not found) is
requested twice by the retry loop — the not-found response is retried, not
terminal, contradicting the claim that a not-found/bad-request response is
never retried; no backoff sleep occurs at all for it. -/
theorem fetch_retry_c2_counterexample :
    fetch_with_retry (fun _ => ApiResult.httpError 404) = (false, 2, []) ∧
    fetch_with_retry (fun _ => ApiResult.httpError 429) = (false, 2, [1, 1]) :=
  ⟨rfl, rfl⟩

/-- C2 (amended): every transcript-id lookup is attempted up to a fixed budget
of two attempts; a first response that is not ok — whatever its status,
including not-found/bad-request — is followed by exactly one retry of the same
id, with a constant 1-second pause inserted only after rate-limited (429)
responses; only when both attempts fail does the resolver move on. -/
theorem fetch_retry_c2_amended (resp : ℕ → ApiResult) :
    (resp 0 = .ok → fetch_with_retry resp = (true, 1, [])) ∧
    (resp 0 ≠ .ok → (fetch_with_retry resp).2.1 = 2) ∧
    (fetch_with_retry (fun _ => ApiResult.httpError 429)).2.2 = [1, 1] := by
  refine ⟨fun h => by simp [fetch_with_retry, retry_loop, h], fun h => ?_, rfl⟩
  cases h0 : resp 0 with
  | ok => exact absurd h0 h
  | httpError code => cases h1 : resp 1 <;> simp [fetch_with_retry, retry_loop, h0, h1]
  | exc => cases h1 : resp 1 <;> simp [fetch_with_retry, retry_loop, h0, h1]

theorem fetch_retry_c2_amended_witness :
    fetch_with_retry (fun _ => ApiResult.ok) = (true, 1, []) :=
  (fetch_retry_c2_amended (fun _ => ApiResult.ok)).1 rfl

/-- Collapsing the compiler's nested emptiness / flag guards into one
conjunction. -/
theorem ite_nest3 (a b c : Prop) [Decidable a] [Decidable b] [Decidable c]
    (x : List (Int × Int × String)) :
    (if a then (if b then (if c then x else []) else []) else [])
      = if a ∧ b ∧ c then x else [] := by
  split_ifs <;> simp_all

/-- C5: with no CDS the whole exon is one non-coding interval; with CDS
boundaries the exon splits into at most three sub-intervals by overlap with the
CDS span — the genomic-lower part (labelled 5'UTR on the forward strand, 3'UTR
on the reverse strand) only under the matching UTR flag, the CDS overlap
always, and the genomic-upper part (3'UTR forward, 5'UTR reverse) only under
the matching flag. -/
theorem split_exon_c5 (strand : Int) (i5 i3 : Bool) (cs ce : Int)
    (name : String) (s e : Int) :
    split_exon strand i5 i3 none name s e = [(s - 1, e, name)] ∧
    split_exon strand i5 i3 (some (cs, ce)) name s e =
      (if s < cs ∧ s ≤ min e (cs - 1) ∧ (if strand = 1 then i5 else i3) = true then
         [(s - 1, min e (cs - 1), name ++ "_" ++ (if strand = 1 then "5UTR" else "3UTR"))]
       else [])
      ++ (if max s cs ≤ min e ce then
            [(max s cs - 1, min e ce, name ++ "_CDS")]
          else [])
      ++ (if ce < e ∧ max s (ce + 1) ≤ e ∧ (if strand = 1 then i3 else i5) = true then
            [(max s (ce + 1) - 1, e, name ++ "_" ++ (if strand = 1 then "3UTR" else "5UTR"))]
          else []) ∧
    (split_exon strand i5 i3 (some (cs, ce)) name s e).length ≤ 3 := by
  have h2 : split_exon strand i5 i3 (some (cs, ce)) name s e =
      (if s < cs ∧ s ≤ min e (cs - 1) ∧ (if strand = 1 then i5 else i3) = true then
         [(s - 1, min e (cs - 1), name ++ "_" ++ (if strand = 1 then "5UTR" else "3UTR"))]
       else [])
      ++ (if max s cs ≤ min e ce then
            [(max s cs - 1, min e ce, name ++ "_CDS")]
          else [])
      ++ (if ce < e ∧ max s (ce + 1) ≤ e ∧ (if strand = 1 then i3 else i5) = true then
            [(max s (ce + 1) - 1, e, name ++ "_" ++ (if strand = 1 then "3UTR" else "5UTR"))]
          else []) := by
    have hne1 : ¬ ("5UTR" : String) = "3UTR" := by decide
    have hne2 : ¬ ("3UTR" : String) = "5UTR" := by decide
    by_cases hstr : strand = 1
    · simp only [split_exon, hstr, ite_true, ite_nest3]
      simp [hne1, hne2]
    · simp only [split_exon, hstr, ite_false, ite_nest3]
      simp [hne1, hne2]
  refine ⟨rfl, h2, ?_⟩
  rw [h2]
  split_ifs <;> simp

/-- Every flank record has positive width: guarded explicitly on the clamped
side, and by the `flank > 0` outer guard on the unclamped side. -/
theorem mem_flank_records_pos (chrom : String) (strand ms me f5 f3 : Int) :
    ∀ r ∈ flank_records chrom strand ms me f5 f3, r.start < r.stop := by
  intro r hr
  unfold flank_records at hr
  rw [List.mem_append] at hr
  rcases hr with hr | hr <;> (split_ifs at hr <;> simp_all <;> omega)

/-- Every intron record has positive width, by the `>` guard of the loop. -/
theorem mem_intron_records_pos (chrom : String) (strand : Int) (total : ℕ) :
    ∀ i exs r, r ∈ intron_records chrom strand total i exs → r.start < r.stop := by
  intro i exs
  induction exs generalizing i with
  | nil => intro r hr; simp [intron_records] at hr
  | cons e1 tl ih =>
    cases tl with
    | nil => intro r hr; simp [intron_records] at hr
    | cons e2 rest =>
      intro r hr
      simp only [intron_records, List.mem_append] at hr
      rcases hr with hr | hr
      · split_ifs at hr with h <;> simp_all
      · exact ih (i + 1) r hr

/-- Every sub-interval produced by the exon split has positive width, given a
well-formed exon (`start ≤ end` in 1-based inclusive coordinates). -/
theorem mem_split_exon_pos (strand : Int) (i5 i3 : Bool) (cds : Option (Int × Int))
    (name : String) (s e : Int) (hse : s ≤ e) :
    ∀ p ∈ split_exon strand i5 i3 cds name s e, p.1 < p.2.1 := by
  intro p hp
  cases cds with
  | none => simp only [split_exon, List.mem_singleton] at hp; subst hp; simp; omega
  | some c =>
    obtain ⟨cs, ce⟩ := c
    simp only [split_exon, List.mem_append] at hp
    rcases hp with (hp | hp) | hp <;>
      (split_ifs at hp <;> simp_all <;> omega)

/-- Every entry of the exon loop output has positive width, given well-formed
exons. -/
theorem mem_exon_regions_pos (strand : Int) (i5 i3 : Bool) (cds : Option (Int × Int))
    (total : ℕ) :
    ∀ i exs, (∀ ex ∈ exs, ex.start ≤ ex.«end») →
      ∀ p ∈ exon_regions strand i5 i3 cds total i exs, p.1 < p.2.1 := by
  intro i exs
  induction exs generalizing i with
  | nil => intro _ p hp; simp [exon_regions] at hp
  | cons ex tl ih =>
    intro hwf p hp
    simp only [exon_regions, List.mem_append] at hp
    rcases hp with hp | hp
    · exact mem_split_exon_pos strand i5 i3 cds _ ex.start ex.«end»
        (hwf ex (List.mem_cons_self ex tl)) p hp
    · exact ih (i + 1) (fun x hx => hwf x (List.mem_cons_of_mem ex hx)) p hp

/-- C9: every interval emitted by the compiler satisfies end > start in 0-based
half-open coordinates — empty UTR parts, empty CDS overlaps, zero-width
introns, and flanks that become empty after clamping are dropped — for every
transcript whose exons each have genomic end ≥ start. -/
theorem emitted_intervals_positive_c9 (ti : TranscriptInfo) (i5 i3 iI : Bool)
    (f5 f3 : Int) (recs : List BedRecord)
    (hex : ∀ ex ∈ ti.exons, ex.start ≤ ex.«end»)
    (hgen : generate_bed_records ti i5 i3 iI f5 f3 = some recs) :
    ∀ r ∈ recs, r.start < r.stop := by
  unfold generate_bed_records at hgen
  cases hs : sortExonsByStart ti.exons with
  | nil => rw [hs] at hgen; simp at hgen
  | cons e0 rest =>
    cases hc : cds_pair ti.cds_start ti.cds_end with
    | none => rw [hs, hc] at hgen; simp at hgen
    | some cds =>
      rw [hs, hc] at hgen
      simp only [Option.some.injEq] at hgen
      subst hgen
      intro r hr
      have hwf : ∀ ex ∈ e0 :: rest, ex.start ≤ ex.«end» := by
        intro x hx
        exact hex x (mem_sortExonsByStart.mp (hs ▸ hx))
      simp only [List.mem_append] at hr
      rcases hr with (hr | hr) | hr
      · exact mem_flank_records_pos _ _ _ _ _ _ r hr
      · cases iI with
        | false => simp at hr
        | true =>
          simp only [ite_true, eq_self_iff_true, if_true] at hr
          exact mem_intron_records_pos _ _ _ 0 (e0 :: rest) r hr
      · rw [List.mem_map] at hr
        obtain ⟨p, hp, rfl⟩ := hr
        exact mem_exon_regions_pos ti.strand i5 i3 cds _ 0 (e0 :: rest) hwf p hp

theorem emitted_intervals_positive_c9_witness :
    (BedRecord.mk "chr1" 99 150 "exon1").start < (BedRecord.mk "chr1" 99 150 "exon1").stop :=
  emitted_intervals_positive_c9 ⟨"T", [⟨100, 150⟩], none, none, "1", 1⟩
    false false false 0 0 _ (by decide) rfl (BedRecord.mk "chr1" 99 150 "exon1") (by decide)

/-- Filtering provenance-tagged entries with a constant tag keeps all or none. -/
theorem tagged_filter_map (t : ℕ) (s : Finset ℕ) (l : List (Int × Int × String)) :
    (((l.map (fun r => (t, r))).filter (fun p => decide (p.1 ∈ s))).map Prod.snd)
      = if t ∈ s then l else [] := by
  induction l with
  | nil => simp
  | cons x xs ih => by_cases h : t ∈ s <;> simp [h, ih]

/-- The filtered exon loop emits exactly the provenance-tagged sub-intervals
whose source-exon transcript-order number lies in the selection set. -/
theorem exon_regions_filtered_eq (strand : Int) (i5 i3 : Bool)
    (cds : Option (Int × Int)) (total : ℕ) (s : Finset ℕ) :
    ∀ i exs,
      exon_regions_filtered strand i5 i3 cds total (some s) i exs
        = ((exon_regions_tagged strand i5 i3 cds total i exs).filter
            (fun p => decide (p.1 ∈ s))).map Prod.snd := by
  intro i exs
  induction exs generalizing i with
  | nil => simp [exon_regions_filtered, exon_regions_tagged]
  | cons ex tl ih =>
    simp only [exon_regions_filtered, exon_regions_tagged, List.filter_append,
      List.map_append, tagged_filter_map, ih (i + 1), in_selection]
    congr 1
    by_cases h : exon_number strand total i ∈ s <;> simp [h]

def exTi5c1 : TranscriptInfo :=
  ⟨"T", [⟨100, 150⟩, ⟨200, 250⟩, ⟨300, 350⟩, ⟨400, 450⟩, ⟨500, 550⟩],
   some 120, some 520, "1", 1⟩

/-- C1: with a non-ALL exon-selection set the compiled output contains no
interval derived from an exon whose transcript-order number is outside the set
— (1) the filtered exon loop equals the provenance-tagged loop restricted to
allowed source exons, so every sub-interval (CDS included) of an excluded exon
is skipped; (2) every emitted intron has both flanking exon numbers inside the
set; (3) concretely, filter {2} on the 5-exon forward transcript with exons
[100-150],[200-250],[300-350],[400-450],[500-550] (introns enabled) yields only
the interval derived from [200-250]. -/
theorem exon_filter_compilation_c1 :
    (∀ (strand : Int) (i5 i3 : Bool) (cds : Option (Int × Int)) (total : ℕ)
       (s : Finset ℕ) (i : ℕ) (exs : List Exon),
       exon_regions_filtered strand i5 i3 cds total (some s) i exs
         = ((exon_regions_tagged strand i5 i3 cds total i exs).filter
             (fun p => decide (p.1 ∈ s))).map Prod.snd) ∧
    (∀ (chrom : String) (strand : Int) (total : ℕ) (s : Finset ℕ)
       (ifil : Option (Finset ℕ)) (i : ℕ) (exs : List Exon) (r : BedRecord),
       r ∈ intron_records_filtered chrom strand total (some s) ifil i exs →
       ∃ j, i ≤ j ∧ exon_number strand total j ∈ s
         ∧ exon_number strand total (j + 1) ∈ s
         ∧ in_selection ifil (intron_number strand total j) = true
         ∧ r.name = "intron" ++ toString (intron_number strand total j)) ∧
    generate_bed_records_filtered exTi5c1 false false true 0 0 (some {2}) none
      = some [⟨"chr1", 199, 250, "exon2_CDS"⟩] := by
  refine ⟨exon_regions_filtered_eq, ?_, by rfl⟩
  intro chrom strand total s ifil i exs
  induction exs generalizing i with
  | nil => intro r hr; simp [intron_records_filtered] at hr
  | cons e1 tl ih =>
    cases tl with
    | nil => intro r hr; simp [intron_records_filtered] at hr
    | cons e2 rest =>
      intro r hr
      simp only [intron_records_filtered, List.mem_append] at hr
      rcases hr with hr | hr
      · split_ifs at hr with h
        · obtain ⟨-, h2, h3, h4⟩ := h
          simp only [List.mem_singleton] at hr
          subst hr
          refine ⟨i, le_refl i, ?_, ?_, h2, rfl⟩
          · simpa [in_selection] using h3
          · simpa [in_selection] using h4
        · simp at hr
      · obtain ⟨j, hj, rest'⟩ := ih (i + 1) r hr
        exact ⟨j, by omega, rest'⟩

theorem exon_filter_compilation_c1_witness :
    ∃ j, 0 ≤ j ∧ exon_number 1 2 j ∈ ({1, 2} : Finset ℕ)
      ∧ exon_number 1 2 (j + 1) ∈ ({1, 2} : Finset ℕ)
      ∧ in_selection none (intron_number 1 2 j) = true
      ∧ (BedRecord.mk "c" 20 29 "intron1").name
          = "intron" ++ toString (intron_number 1 2 j) :=
  exon_filter_compilation_c1.2.1 "c" 1 2 {1, 2} none 0 [⟨10, 20⟩, ⟨30, 40⟩]
    (BedRecord.mk "c" 20 29 "intron1") (by decide)

def tiC3 : TranscriptInfo := ⟨"T", [⟨100, 150⟩], none, none, "1", 1⟩

/-- C3 counterexample: for a 1-exon transcript with a 500 bp promoter flank
configured and exon filter "5" (every requested exon number out of range), the
generation loop emits nothing at all for the gene — the whole gene is skipped,
not just the exon region class — although without the filter the compiler
would emit the promoter flank (and the exon). This contradicts the claim that
the gene's other region classes, in particular flanks with configured
length > 0, are still emitted. -/
theorem selection_out_of_range_c3_counterexample :
    process_gene (some tiC3) false false false 500 0 (some "5") (some "all") 0 = none ∧
    generate_bed_records tiC3 false false false 500 0
      = some [⟨"chr1", 0, 99, "promoter_5prime"⟩, ⟨"chr1", 99, 150, "exon1"⟩] :=
  ⟨rfl, rfl⟩

/-- C3 (amended): invalid filter numbers are dropped and valid ones proceed;
when every requested intron number is invalid, introns alone are skipped for
that gene (the remaining pipeline, flanks included, runs exactly as with
introns disabled); but when every requested exon number is invalid the whole
gene is skipped — no region class, not even flanks with configured length > 0,
is emitted for it. -/
theorem selection_out_of_range_c3_amended
    (ti : TranscriptInfo) (u5 u3 : Bool) (f5 f3 p : Int)
    (eraw iraw : Option String) (se si : Finset ℕ) :
    (parse_exon_filter eraw = .ok none →
     parse_exon_filter iraw = .ok (some si) → si ≠ ∅ →
     (∀ n ∈ si, n < 1 ∨ n > ti.exons.length - 1) →
     process_gene (some ti) u5 u3 true f5 f3 eraw iraw p
       = (generate_bed_records_filtered ti u5 u3 false f5 f3 none none).map
           (pad_records p)) ∧
    (parse_exon_filter eraw = .ok (some se) → se ≠ ∅ →
     (∀ e ∈ se, e < 1 ∨ e > ti.exons.length) →
     ∀ (u5' u3' uI : Bool) (f5' f3' : Int) (iraw' : Option String) (p' : Int),
       process_gene (some ti) u5' u3' uI f5' f3' eraw iraw' p' = none) := by
  constructor
  · intro heparse hparse hne hinv
    have hfilter : si.filter (fun n => n < 1 ∨ n > max (ti.exons.length - 1) 0) = si :=
      Finset.filter_true_of_mem (fun n hn => by rcases hinv n hn with h | h <;> omega)
    have hval : validate_intron_filter (max (ti.exons.length - 1) 0) true (some si)
        = (none, false) := by
      simp only [validate_intron_filter, hfilter]
      rw [if_neg hne, Finset.sdiff_self]
      simp
    simp only [process_gene, heparse, hparse, validate_exon_filter, hval]
  · intro hparse hne hinv u5' u3' uI f5' f3' iraw' p'
    have hfilter : se.filter (fun e => e < 1 ∨ e > ti.exons.length) = se :=
      Finset.filter_true_of_mem (fun n hn => hinv n hn)
    have hval : validate_exon_filter ti.exons.length (some se) = none := by
      simp only [validate_exon_filter, hfilter]
      rw [if_neg hne, Finset.sdiff_self]
      simp
    cases hparse2 : parse_exon_filter iraw' with
    | error e => simp [process_gene, hparse, hparse2]
    | ok ifs => simp [process_gene, hparse, hparse2, hval]

theorem selection_out_of_range_c3_amended_witness :
    process_gene (some ⟨"T", [⟨100, 150⟩, ⟨200, 250⟩], none, none, "1", 1⟩)
        false false true 500 0 none (some "9") 0
      = (generate_bed_records_filtered ⟨"T", [⟨100, 150⟩, ⟨200, 250⟩], none, none, "1", 1⟩
           false false false 500 0 none none).map (pad_records 0) :=
  (selection_out_of_range_c3_amended ⟨"T", [⟨100, 150⟩, ⟨200, 250⟩], none, none, "1", 1⟩
      false false 500 0 0 none (some "9") ∅ (∅ ∪ {9})).1
    rfl rfl (by decide) (by decide)

/-- C8: single-region liftover returns the input unchanged when source equals
target (case-insensitively); a supported pair maps the two endpoints
independently via `_convert_region`, which is unmapped when either endpoint
fails to map or the endpoints land on different target chromosomes, and swaps
an inverted pair instead of rejecting it; an unsupported assembly pair raises
a configuration error. -/
theorem liftover_single_region_c8
    (lo19 lo38 : String → Int → List (String × Int))
    (chrom : String) (start stop : Int) (from_build to_build : String) :
    (pyLowerStr from_build = pyLowerStr to_build →
      liftover_single_region lo19 lo38 chrom start stop from_build to_build
        = .ok (some (chrom, start, stop))) ∧
    ((pyLowerStr from_build = "hg19" ∨ pyLowerStr from_build = "grch37") →
     (pyLowerStr to_build = "hg38" ∨ pyLowerStr to_build = "grch38") →
      liftover_single_region lo19 lo38 chrom start stop from_build to_build
        = .ok (_convert_region lo19
            (if pyStartsWith "chr" chrom then chrom else "chr" ++ chrom) start stop)) ∧
    (∀ (lo : String → Int → List (String × Int)) (c : String) (s e : Int),
      lo c s = [] ∨ lo c e = [] → _convert_region lo c s e = none) ∧
    (∀ (lo : String → Int → List (String × Int)) (c : String) (s e : Int)
       (c1 : String) (p1 : Int) (t1 : List (String × Int))
       (c2 : String) (p2 : Int) (t2 : List (String × Int)),
      lo c s = (c1, p1) :: t1 → lo c e = (c2, p2) :: t2 →
      (c1 ≠ c2 → _convert_region lo c s e = none) ∧
      (c1 = c2 → _convert_region lo c s e = some (c1, min p1 p2, max p1 p2))) ∧
    (pyLowerStr from_build ≠ pyLowerStr to_build →
     ¬ ((pyLowerStr from_build = "hg38" ∨ pyLowerStr from_build = "grch38")
        ∧ (pyLowerStr to_build = "t2t" ∨ pyLowerStr to_build = "hs1"
           ∨ pyLowerStr to_build = "chm13")) →
     ¬ ((pyLowerStr from_build = "hg19" ∨ pyLowerStr from_build = "grch37")
        ∧ (pyLowerStr to_build = "hg38" ∨ pyLowerStr to_build = "grch38")) →
     ¬ ((pyLowerStr from_build = "hg19" ∨ pyLowerStr from_build = "grch37")
        ∧ (pyLowerStr to_build = "t2t" ∨ pyLowerStr to_build = "hs1"
           ∨ pyLowerStr to_build = "chm13")) →
     ∃ m, liftover_single_region lo19 lo38 chrom start stop from_build to_build
        = .error m) := by
  refine ⟨fun h => by simp [liftover_single_region, h], ?_, ?_, ?_, ?_⟩
  · intro hf ht
    have hne : pyLowerStr from_build ≠ pyLowerStr to_build := by
      rcases hf with hf | hf <;> rcases ht with ht | ht <;> rw [hf, ht] <;> decide
    have hn38 : ¬ ((pyLowerStr from_build = "hg38" ∨ pyLowerStr from_build = "grch38")
        ∧ (pyLowerStr to_build = "t2t" ∨ pyLowerStr to_build = "hs1"
           ∨ pyLowerStr to_build = "chm13")) := by
      rintro ⟨h1, -⟩
      rcases hf with hf | hf <;> rcases h1 with h1 | h1 <;> rw [hf] at h1 <;> revert h1 <;> decide
    simp only [liftover_single_region, if_neg hne, if_neg hn38, if_pos (And.intro hf ht)]
  · intro lo c s e h
    rcases h with h | h
    · simp [_convert_region, h]
    · cases hs : lo c s <;> simp [_convert_region, h, hs]
  · intro lo c s e c1 p1 t1 c2 p2 t2 hs he
    constructor
    · intro hne
      simp [_convert_region, hs, he, hne]
    · intro heq
      subst heq
      simp only [_convert_region, hs, he]
      rw [if_neg (by simp)]
      rcases le_or_lt p1 p2 with h | h
      · rw [if_neg (by omega), min_eq_left h, max_eq_right h]
      · rw [if_pos (by omega), min_eq_right h.le, max_eq_left h.le]
  · intro hne h1 h2 h3
    simp only [liftover_single_region, if_neg hne, if_neg h1, if_neg h2, if_neg h3]
    exact ⟨_, rfl⟩

theorem liftover_single_region_c8_witness :
    liftover_single_region (fun _ _ => []) (fun _ _ => []) "17" 100 200 "hg38" "HG38"
      = .ok (some ("17", 100, 200)) :=
  (liftover_single_region_c8 (fun _ _ => []) (fun _ _ => []) "17" 100 200 "hg38" "HG38").1
    (by decide)

/-- C10: a data line of the BED liftover whose tolerant tokenization yields at
least three fields but whose second or third field is not a decimal integer
does not raise — the (BOM-free) line is appended in full to the unmapped
output with the reason annotation "# Invalid Coordinates", and the remaining
lines are still processed, their converted and unmapped outputs unchanged. -/
theorem invalid_coordinates_c10
    (lo : String → Int → List (String × Int)) (line : String) (rest : List String)
    (hbom : String.mk (line.data.dropWhile (· = '﻿')) = line)
    (hblank : (pyStrip line.data).isEmpty = false)
    (hhash : pyStartsWith "#" line = false)
    (htrack : pyStartsWith "track" line = false)
    (hbrowser : pyStartsWith "browser" line = false)
    (hlen : ¬ (tolerant_tokenize (pyStrip line.data)).length < 3)
    (hbad : pyInt? ((tolerant_tokenize (pyStrip line.data)).getD 1 []) = none
          ∨ pyInt? ((tolerant_tokenize (pyStrip line.data)).getD 2 []) = none) :
    _liftover_bed_content lo (line :: rest)
      = ((_liftover_bed_content lo rest).1,
         (line ++ "\t# Invalid Coordinates") :: (_liftover_bed_content lo rest).2) := by
  have hp : process_line lo line = .unmapped (line ++ "\t# Invalid Coordinates") := by
    unfold process_line
    rw [hbom]
    simp only [hblank, hhash, htrack, hbrowser, Bool.or_self, Bool.or_false,
      Bool.false_or, Bool.false_eq_true, if_false]
    rw [if_neg hlen]
    rcases hbad with h | h
    · rw [h]
    · cases h1 : pyInt? ((tolerant_tokenize (pyStrip line.data)).getD 1 []) <;> rw [h]
  simp only [_liftover_bed_content, hp]

theorem invalid_coordinates_c10_witness :
    _liftover_bed_content (fun _ _ => []) ["chr1\tabc\t200\tname"]
      = ([], ["chr1\tabc\t200\tname\t# Invalid Coordinates"]) :=
  invalid_coordinates_c10 (fun _ _ => []) "chr1\tabc\t200\tname" []
    (by decide) (by decide) (by decide) (by decide) (by decide) (by decide)
    (Or.inl (by decide))
